import Mathlib

/-!
Shallow embedding of `src/internal/policies/mount/adsys_mount/src/lib.rs`
(the adsys user-mount orchestration module) and proofs about it.

The Rust module parses a mounts file into `MountEntry` values, dispatches one
asynchronous gio mount per entry, answers authentication challenges through a
one-shot per-operation gate (`ask_password_cb`), drains completion events in a
glib main loop (`user_mount_cb`), and aggregates per-entry failures into a
single result (`handle_user_mounts`).

External collaborators (the filesystem read, the gio provider, the glib
channel) are modelled as parameters: the file read becomes an
`Except Unit String`, and the stream of completion events delivered on the
channel becomes a `List Msg` in arrival order.  Everything else is translated
directly from the source.
-/

namespace AdsysMount

/-- Model of gio IOErrorEnum: only the variants the module mentions, plus a
generic `Failed` standing for every other kind. -/
inductive IOErrorEnum
  | AlreadyMounted
  | Failed
  | PermissionDenied
deriving DecidableEq, Repr

/-- Model of glib Error, abstracted to the one observation the module makes of it:
`error.matches(kind)`. -/
structure GlibError where
  kind : IOErrorEnum
deriving DecidableEq, Repr

/-- Operation matches of glib Error, as used at line 122 of the source. -/
def GlibError.matches (e : GlibError) (k : IOErrorEnum) : Bool :=
  e.kind = k

/-- Enum MountStatus (lib.rs lines 32-37). -/
inductive MountStatus
  | Done
  | Asked
deriving DecidableEq, Repr

deriving instance DecidableEq for Except

/-- Alias MountResult = Result of MountStatus or glib Error (line 29). -/
abbrev MountResult := Except GlibError MountStatus

/-- Struct MountEntry (lib.rs lines 17-21). -/
structure MountEntry where
  mount_path : String
  is_anonymous : Bool
deriving DecidableEq, Repr

/-- Struct Msg, the message passed on the glib channel (lib.rs lines 23-27). -/
structure Msg where
  path : String
  status : MountResult
deriving DecidableEq, Repr

/-- Struct MountError, the per-entry failure record (lib.rs lines 39-42). -/
structure MountError where
  path : String
  error : GlibError
deriving DecidableEq, Repr

/-- Enum AdsysMountError (from mod errors): the two top-level error kinds. -/
inductive AdsysMountError
  | ParseError
  | MountError
deriving DecidableEq, Repr

/-! ## EntryParser (`parse_entries`, lib.rs lines 131-157)

`fs::read_to_string` is external; the parser below receives the file content.
Rust's `str::lines` splits at `\n`, strips a `\r` that immediately precedes a
stripped `\n`, and does not yield a final empty segment after a trailing
newline; `rustLines` reproduces that at the character level. -/

/-- One pass over the characters: `acc` holds the current line reversed. -/
def rustLinesAux (acc : List Char) : List Char → List (List Char)
  | [] => if acc = [] then [] else [acc.reverse]
  | c :: rest =>
    if c = '\n' then
      (match acc with
        | '\r' :: acc' => acc'.reverse
        | _ => acc.reverse) :: rustLinesAux [] rest
    else
      rustLinesAux (c :: acc) rest

/-- Rust line splitting (str lines), on the character content of a string. -/
def rustLines (s : String) : List (List Char) :=
  rustLinesAux [] s.data

/-- The literal marker `"[anonymous]"` (line 144). -/
def anonymousMarker : List Char :=
  ['[', 'a', 'n', 'o', 'n', 'y', 'm', 'o', 'u', 's', ']']

/-- Rust prefix stripping on char lists: some remainder when the marker matches. -/
def stripPrefixChars : List Char → List Char → Option (List Char)
  | [], s => some s
  | _ :: _, [] => none
  | p :: ps, c :: cs => if p = c then stripPrefixChars ps cs else none

/-- The body of the `for p in content.lines()` loop (lines 139-154):
an empty line is skipped, a line starting with the marker becomes an
anonymous entry holding the remainder, any other line becomes a
credentialed entry holding the whole line. -/
def parse_line (p : List Char) : Option MountEntry :=
  if p = [] then
    none
  else
    match stripPrefixChars anonymousMarker p with
    | some s => some { mount_path := String.mk s, is_anonymous := true }
    | none => some { mount_path := String.mk p, is_anonymous := false }

/-- Function parse_entries (lines 131-157), applied to the content the file read
produced.  The read itself is external; `handle_user_mounts` below takes the
read's outcome as a parameter. -/
def parse_entries (content : String) : List MountEntry :=
  (rustLines content).filterMap parse_line

/-! ## AuthGate (`ask_password_cb`, lib.rs lines 194-228)

The gio `MountOperation` is modelled by the two observations the callback
makes of it: `is_anonymous()` and the typed data slot `data::<MountResult>("state")`.
The process environment is a partial map from variable names to values;
`std::env::var(name).is_ok()` is modelled as presence in that map.
The callback's effects are the updated data slot and the reply it issues
(`none` when no `reply` call is reached). -/

/-- Enum gio MountOperationResult: the replies the callback can issue. -/
inductive MountOperationResult
  | Handled
  | Aborted
deriving DecidableEq, Repr

/-- The state of a `gio::MountOperation` as observed by `ask_password_cb`:
the anonymous flag set at dispatch, and the `"state"` data slot. -/
structure MountOperation where
  anonymous : Bool
  state : Option MountResult
deriving DecidableEq, Repr

/-- Struct gio AskPasswordFlags, reduced to the one flag the callback tests. -/
structure AskPasswordFlags where
  anonymous_supported : Bool
deriving DecidableEq, Repr

/-- The process environment: `var name` is `some value` when the variable is
set.  (`std::env::var(_).is_ok()` is presence.) -/
def Env := String → Option String

/-- Function ask_password_cb (lines 194-228): returns the mount operation after the
call (its `"state"` slot possibly set) and the reply issued, if any.
On the anonymous path, a `"state"` slot holding anything other than
`Ok(Asked)` falls through both inner branches, so no reply is issued; the
slot is only ever written with `Ok(Asked)`, so that case is unreachable in
runs of this module. -/
def ask_password_cb (op : MountOperation) (flags : AskPasswordFlags) (env : Env) :
    MountOperation × Option MountOperationResult :=
  if op.anonymous && flags.anonymous_supported then
    match op.state with
    | some data =>
      match data with
      | .ok MountStatus.Asked => (op, some MountOperationResult.Aborted)
      | _ => (op, none)
    | none =>
      ({ op with state := some (Except.ok MountStatus.Asked) },
       some MountOperationResult.Handled)
  else if (env "KRB5CCNAME").isSome then
    (op, some MountOperationResult.Handled)
  else
    (op, some MountOperationResult.Aborted)

/-- Repeated challenges on the same operation: the provider raises `n`
challenges in sequence, each seeing the operation state the previous call
left behind.  Returns the final operation and the replies in order. -/
def iterate_challenges (op : MountOperation) (flags : AskPasswordFlags) (env : Env) :
    Nat → MountOperation × List (Option MountOperationResult)
  | 0 => (op, [])
  | n + 1 =>
    let (op', reply) := ask_password_cb op flags env
    let (opFinal, replies) := iterate_challenges op' flags env n
    (opFinal, reply :: replies)

/-! ## CompletionTracker (`user_mount_cb`, lib.rs lines 44-66)

The callback's observable effects: the error list after the call, the new
pending count, whether `main_loop.quit()` was called, and the
`glib::Continue` value it returns. -/

/-- The result of one invocation of `user_mount_cb`. -/
structure CbResult where
  errors : List MountError
  mounts_left : Nat
  quit : Bool
  cont : Bool
deriving DecidableEq, Repr

/-- Function user_mount_cb (lines 44-66): an error status appends to the error
list, `Ok(Done)` and the catch-all (`Ok(Asked)`) leave it unchanged; the
pending count is decremented; the main loop is quit exactly when it reaches
zero; the returned `glib::Continue` is `mounts_left != 0`. -/
def user_mount_cb (msg : Msg) (errors : List MountError) (mounts_left : Nat) : CbResult :=
  let errors :=
    match msg.status with
    | .error e => errors ++ [⟨msg.path, e⟩]
    | .ok MountStatus.Done => errors
    | .ok MountStatus.Asked => errors
  let mounts_left := mounts_left - 1
  ⟨errors, mounts_left, mounts_left = 0, mounts_left ≠ 0⟩

/-- The state of the completion loop after it stops consuming. -/
structure LoopState where
  errors : List MountError
  mounts_left : Nat
  eventsProcessed : Nat
  quitSignals : Nat
deriving DecidableEq, Repr

/-- The main-loop drain: `user_mount_cb` is invoked once per message, in
arrival order, until it returns `Continue(false)` (which coincides with the
`quit()` call) or the channel has no further messages.  In the real program
the loop blocks until a message arrives, so a run that exhausts the list
without quitting corresponds to a blocked loop. -/
def runLoopAux (errors : List MountError) (left processed quits : Nat) :
    List Msg → LoopState
  | [] => ⟨errors, left, processed, quits⟩
  | m :: ms =>
    let r := user_mount_cb m errors left
    let quits' := quits + (if r.quit then 1 else 0)
    if r.cont then
      runLoopAux r.errors r.mounts_left (processed + 1) quits' ms
    else
      ⟨r.errors, r.mounts_left, processed + 1, quits'⟩

/-- The completion loop started with an empty error list and `n` pending
mounts (lib.rs lines 85-107). -/
def runLoop (n : Nat) (msgs : List Msg) : LoopState :=
  runLoopAux [] n 0 0 msgs

/-! ## ResultEvaluator and `handle_user_mounts` (lib.rs lines 68-128) -/

/-- Lines 110-127: the evaluation of the accumulated error list, exactly as
the source writes it — empty list is success; otherwise `Ok(())` when some
error does NOT match `AlreadyMounted`, `Err(MountError)` when every error
matches `AlreadyMounted`.  (Note the branches: this is what the code does,
which is the reverse of the comment above it in the source.) -/
def evaluate_errors (errors : List MountError) : Except AdsysMountError Unit :=
  if errors.isEmpty then
    Except.ok ()
  else if errors.any fun me => !(me.error.matches IOErrorEnum.AlreadyMounted) then
    Except.ok ()
  else
    Except.error AdsysMountError.MountError

/-- The observable outcome of one `handle_user_mounts` call. -/
structure RunOutcome where
  result : Except AdsysMountError Unit
  dispatched : Nat
  loopEntered : Bool
deriving DecidableEq, Repr

/-- Function handle_user_mounts (lines 68-128).  The file read is external, so its
outcome is a parameter (`Except.error` = unreadable file, mapped to
`ParseError`); `completions` is the list of completion events the dispatched
mounts deliver on the channel, in arrival order.  An empty parse returns
success before any dispatch (lines 76-78); otherwise every entry is
dispatched, the loop drains the channel, and the error list is evaluated. -/
def handle_user_mounts (readResult : Except Unit String) (completions : List Msg) :
    RunOutcome :=
  match readResult with
  | .error _ => ⟨Except.error AdsysMountError.ParseError, 0, false⟩
  | .ok content =>
    let parsed := parse_entries content
    if parsed.isEmpty then
      ⟨Except.ok (), 0, false⟩
    else
      let final := runLoop parsed.length completions
      ⟨evaluate_errors final.errors, parsed.length, true⟩

/-- The per-entry failures a list of completion events carries, in arrival
order — exactly the error list the loop accumulates. -/
def collectErrors (msgs : List Msg) : List MountError :=
  msgs.filterMap fun m =>
    match m.status with
    | .error e => some ⟨m.path, e⟩
    | .ok _ => none

/-! Concrete environments used to instantiate the gate theorems. -/

/-- An environment in which the Kerberos credential-cache variable is set. -/
def envWithTicket : Env := fun name =>
  if name = "KRB5CCNAME" then some "FILE:tmp-krb5cc-0" else none

/-- The same presence pattern as `envWithTicket` with a different value,
used to show the value itself is never inspected. -/
def envWithTicket2 : Env := fun name =>
  if name = "KRB5CCNAME" then some "FILE:another-cache" else none

/-- An environment with no variables set at all. -/
def envNoTicket : Env := fun _ => none

end AdsysMount

/-! ## Helper lemmas about the completion tracker -/

namespace AdsysMount

/-- One invocation of `user_mount_cb`, in closed form: the error list grows
by exactly the errors the message carries, the count drops by one, and the
quit/continue outputs are determined by the new count. -/
lemma user_mount_cb_eq (m : Msg) (errs : List MountError) (l : Nat) :
    user_mount_cb m errs l =
      ⟨errs ++ collectErrors [m], l - 1, decide (l - 1 = 0), decide (l - 1 ≠ 0)⟩ := by
  cases m with
  | mk path status =>
    cases status with
    | error e => simp [user_mount_cb, collectErrors]
    | ok s => cases s <;> simp [user_mount_cb, collectErrors]

/-- Error collection distributes over an initial event. -/
lemma collectErrors_cons (m : Msg) (ms : List Msg) :
    collectErrors (m :: ms) = collectErrors [m] ++ collectErrors ms := by
  cases m with
  | mk path status =>
    cases status with
    | error e => simp [collectErrors]
    | ok s => simp [collectErrors]

/-- The drain loop on any list of events no longer than the pending count:
it consumes every event, decrements once per event, accumulates exactly the
events' errors, and signals quit exactly once — precisely when the events
suffice to bring the count to zero. -/
lemma runLoopAux_partial (msgs : List Msg) :
    ∀ (errs : List MountError) (p q n : Nat), msgs.length ≤ n →
      runLoopAux errs n p q msgs =
        ⟨errs ++ collectErrors msgs, n - msgs.length, p + msgs.length,
         q + (if msgs.length = n ∧ msgs ≠ [] then 1 else 0)⟩ := by
  induction msgs with
  | nil => intro errs p q n h; simp [runLoopAux, collectErrors]
  | cons m ms ih =>
    intro errs p q n h
    have hn : 1 ≤ n := le_trans (by simp) h
    have hlen : ms.length + 1 ≤ n := by simpa using h
    simp only [runLoopAux, user_mount_cb_eq]
    by_cases h0 : n - 1 = 0
    · have hn1 : n = 1 := by omega
      have hms : ms = [] := by
        have : ms.length = 0 := by omega
        simpa [List.length_eq_zero] using this
      subst hms
      subst hn1
      simp [runLoopAux, collectErrors_cons, collectErrors]
    · have hrec : ms.length ≤ n - 1 := by omega
      simp only [h0, ne_eq, decide_eq_true_eq, if_false, not_false_eq_true, if_true]
      rw [ih _ _ _ _ hrec]
      have hq : (ms.length = n - 1 ∧ ms ≠ []) ↔ (ms.length + 1 = n ∧ ¬(m :: ms = [])) := by
        simp only [ne_eq, ← List.length_eq_zero, List.length_cons]
        omega
      rw [if_congr hq rfl rfl]
      have hnil : collectErrors ([] : List Msg) = [] := rfl
      simp only [LoopState.mk.injEq, List.length_cons]
      refine ⟨?_, by omega, by omega, rfl⟩
      rw [collectErrors_cons m ms]
      simp [hnil, List.append_assoc]

/-- A run fed exactly as many events as there are pending mounts: every
event is processed, the count ends at zero, quit is signalled once, and the
error list is exactly the errors the events carried. -/
lemma runLoop_complete (msgs : List Msg) (n : Nat) (hlen : msgs.length = n) (hn : 1 ≤ n) :
    runLoop n msgs = ⟨collectErrors msgs, 0, n, 1⟩ := by
  subst hlen
  have hne : msgs ≠ [] := by
    intro hh
    subst hh
    simp at hn
  have h := runLoopAux_partial msgs [] 0 0 msgs.length le_rfl
  simpa [runLoop, hne] using h

/-- A run fed only the first `k ≤ n` of the events: `k` events processed,
count at `n - k`, and no quit signal before the `n`-th event. -/
lemma runLoop_take (msgs : List Msg) (n k : Nat) (hlen : msgs.length = n) (hn : 1 ≤ n)
    (hk : k ≤ n) :
    runLoop n (msgs.take k) =
      ⟨collectErrors (msgs.take k), n - k, k, if k = n then 1 else 0⟩ := by
  have hlt : (msgs.take k).length = k := by
    simp [hlen, hk, List.length_take, Nat.min_eq_left]
  have h := runLoopAux_partial (msgs.take k) [] 0 0 n (by omega)
  have hcond : ((msgs.take k).length = n ∧ msgs.take k ≠ []) ↔ k = n := by
    rw [hlt]
    simp only [ne_eq, ← List.length_eq_zero, hlt]
    omega
  rw [if_congr hcond rfl rfl] at h
  simpa [runLoop, hlt] using h

/-- Permuting event arrival permutes the collected errors. -/
lemma collectErrors_perm {l₁ l₂ : List Msg} (h : l₁.Perm l₂) :
    (collectErrors l₁).Perm (collectErrors l₂) :=
  h.filterMap _

/-- The final evaluation only looks at emptiness and at membership of a
non-already-mounted error, both invariant under permutation. -/
lemma evaluate_errors_perm {l₁ l₂ : List MountError} (h : l₁.Perm l₂) :
    evaluate_errors l₁ = evaluate_errors l₂ := by
  have hlen := h.length_eq
  have hempty : l₁.isEmpty = l₂.isEmpty := by
    cases l₁ <;> cases l₂ <;> simp_all
  have hany : (l₁.any fun me => !(me.error.matches IOErrorEnum.AlreadyMounted)) =
      (l₂.any fun me => !(me.error.matches IOErrorEnum.AlreadyMounted)) := by
    rw [Bool.eq_iff_iff]
    simp only [List.any_eq_true]
    constructor
    · rintro ⟨x, hx, hpx⟩
      exact ⟨x, h.mem_iff.mp hx, hpx⟩
    · rintro ⟨x, hx, hpx⟩
      exact ⟨x, h.mem_iff.mpr hx, hpx⟩
  unfold evaluate_errors
  rw [hempty, hany]

/-- The gate from the already-asked state: every further anonymous-supported
challenge is answered `Aborted` and the state never changes. -/
lemma iterate_challenges_asked (env : Env) (n : Nat) :
    iterate_challenges ⟨true, some (Except.ok MountStatus.Asked)⟩ ⟨true⟩ env n =
      (⟨true, some (Except.ok MountStatus.Asked)⟩,
        List.replicate n (some MountOperationResult.Aborted)) := by
  induction n with
  | zero => rfl
  | succ k ih =>
    simp [iterate_challenges, ask_password_cb, ih, List.replicate_succ]

end AdsysMount

/-! ## The claims -/

namespace AdsysMount

/-- C1: the code contradicts the claim (and its own comment at line 119).
With the error list holding exactly one AlreadyMounted error the function
returns `Err(MountError)`, and with one error of a different kind it
returns `Ok(())` — the reverse of the claimed classification.  This theorem
evaluates the embedded `handle_user_mounts` at both failing inputs. -/
theorem C1_swapped_branches :
    handle_user_mounts (Except.ok "smb://h/a")
        [⟨"smb://h/a", Except.error ⟨IOErrorEnum.AlreadyMounted⟩⟩] =
      ⟨Except.error AdsysMountError.MountError, 1, true⟩ ∧
    handle_user_mounts (Except.ok "smb://h/a")
        [⟨"smb://h/a", Except.error ⟨IOErrorEnum.Failed⟩⟩] =
      ⟨Except.ok (), 1, true⟩ := by decide

/-- C2 counterexample: the line consisting exactly of the marker
`[anonymous]` is accepted by the parser and yields an entry whose
`mount_path` is the empty string, refuting the claimed invariant. -/
theorem C2_counterexample :
    ∃ e ∈ parse_entries "[anonymous]", e.mount_path = "" := by decide

/-- C2 amended: an entry produced by the parser can have an empty
`mount_path` only when its line was exactly the marker, so every
credentialed (non-anonymous) entry has a non-empty `mount_path`;
equivalently, an entry with empty `mount_path` is anonymous. -/
theorem C2_amended (content : String) (e : MountEntry)
    (hmem : e ∈ parse_entries content) (hempty : e.mount_path = "") :
    e.is_anonymous = true := by
  rcases List.mem_filterMap.mp hmem with ⟨p, hpmem, hp⟩
  unfold parse_line at hp
  by_cases hnil : p = []
  · simp [hnil] at hp
  · rw [if_neg hnil] at hp
    cases hs : stripPrefixChars anonymousMarker p with
    | some s =>
      rw [hs] at hp
      cases hp
      rfl
    | none =>
      rw [hs] at hp
      cases hp
      exact absurd (by simpa using congrArg String.data hempty) hnil

/-- C2 witness: the amended statement applied at the concrete input
`[anonymous]` and the entry it produces. -/
theorem C2_amended_witness :
    ((⟨"", true⟩ : MountEntry) ∈ parse_entries "[anonymous]") ∧
    (⟨"", true⟩ : MountEntry).is_anonymous = true :=
  ⟨by decide, C2_amended "[anonymous]" ⟨"", true⟩ (by decide) rfl⟩

/-- C3: the per-operation gate issues at most one Handled reply on the
anonymous path.  For an operation dispatched with anonymous requested and a
challenge reporting anonymous support, starting from the unset state, the
first of `n + 1` challenges is answered Handled (and the state moves to
Asked); every one of the `n` subsequent challenges is answered Aborted. -/
theorem C3_one_shot (env : Env) (n : Nat) :
    iterate_challenges ⟨true, none⟩ ⟨true⟩ env (n + 1) =
      (⟨true, some (Except.ok MountStatus.Asked)⟩,
        some MountOperationResult.Handled ::
          List.replicate n (some MountOperationResult.Aborted)) := by
  simp [iterate_challenges, ask_password_cb, iterate_challenges_asked]

/-- C4: with `n ≥ 1` dispatched entries and `n` arriving completion events,
each `user_mount_cb` call decrements the pending count by exactly one, the
loop processes exactly `n` events, and quit is signalled exactly once —
and on any proper prefix of the events the count is still positive and no
quit has been signalled, so termination happens precisely at the `n`-th
event. -/
theorem C4_completion_exact (msgs : List Msg) (n : Nat)
    (hlen : msgs.length = n) (hn : 1 ≤ n) :
    (∀ (m : Msg) (errs : List MountError) (l : Nat), 0 < l →
        (user_mount_cb m errs l).mounts_left + 1 = l) ∧
    (runLoop n msgs).eventsProcessed = n ∧
    (runLoop n msgs).mounts_left = 0 ∧
    (runLoop n msgs).quitSignals = 1 ∧
    (∀ k, k ≤ n →
      (runLoop n (msgs.take k)).eventsProcessed = k ∧
      (runLoop n (msgs.take k)).mounts_left = n - k ∧
      (runLoop n (msgs.take k)).quitSignals = if k = n then 1 else 0) := by
  refine ⟨?_, ?_, ?_, ?_, ?_⟩
  · intro m errs l hl
    rw [user_mount_cb_eq]
    simp only []
    omega
  · rw [runLoop_complete msgs n hlen hn]
  · rw [runLoop_complete msgs n hlen hn]
  · rw [runLoop_complete msgs n hlen hn]
  · intro k hk
    rw [runLoop_take msgs n k hlen hn hk]
    exact ⟨rfl, rfl, rfl⟩

/-- C4 witness: the tracker theorem applied to a concrete two-event run. -/
theorem C4_witness :
    (runLoop 2 [⟨"smb://h/a", Except.ok MountStatus.Done⟩,
                ⟨"smb://h/b", Except.error ⟨IOErrorEnum.Failed⟩⟩]).eventsProcessed = 2 ∧
    (runLoop 2 [⟨"smb://h/a", Except.ok MountStatus.Done⟩,
                ⟨"smb://h/b", Except.error ⟨IOErrorEnum.Failed⟩⟩]).mounts_left = 0 ∧
    (runLoop 2 [⟨"smb://h/a", Except.ok MountStatus.Done⟩,
                ⟨"smb://h/b", Except.error ⟨IOErrorEnum.Failed⟩⟩]).quitSignals = 1 := by
  have h := C4_completion_exact
    [⟨"smb://h/a", Except.ok MountStatus.Done⟩,
     ⟨"smb://h/b", Except.error ⟨IOErrorEnum.Failed⟩⟩] 2 rfl (by decide)
  exact ⟨h.2.1, h.2.2.1, h.2.2.2.1⟩

/-- C5: on a challenge not taking the anonymous path, the gate replies
Handled exactly when the Kerberos marker is present in the environment and
Aborted when it is absent, leaves the operation state untouched, and the
reply agrees between any two environments with the same presence of the
marker — the value is never inspected. -/
theorem C5_credentialed (op : MountOperation) (flags : AskPasswordFlags) (env envB : Env)
    (h : ¬(op.anonymous = true ∧ flags.anonymous_supported = true)) :
    ask_password_cb op flags env =
      (op, some (if (env "KRB5CCNAME").isSome then MountOperationResult.Handled
                 else MountOperationResult.Aborted)) ∧
    ((env "KRB5CCNAME").isSome = (envB "KRB5CCNAME").isSome →
      ask_password_cb op flags env = ask_password_cb op flags envB) := by
  have hb : (op.anonymous && flags.anonymous_supported) = false := by
    cases hA : op.anonymous <;> cases hB : flags.anonymous_supported <;> simp_all
  constructor
  · unfold ask_password_cb
    rw [hb]
    by_cases hK : (env "KRB5CCNAME").isSome <;> simp [hK]
  · intro hEq
    unfold ask_password_cb
    rw [hb, hEq]

/-- C5 witness: with the marker set the reply is Handled, with it unset the
reply is Aborted, and two environments holding different values for the
marker produce identical behaviour. -/
theorem C5_witness :
    ask_password_cb ⟨false, none⟩ ⟨true⟩ envWithTicket =
      (⟨false, none⟩, some MountOperationResult.Handled) ∧
    ask_password_cb ⟨false, none⟩ ⟨true⟩ envNoTicket =
      (⟨false, none⟩, some MountOperationResult.Aborted) ∧
    ask_password_cb ⟨false, none⟩ ⟨true⟩ envWithTicket =
      ask_password_cb ⟨false, none⟩ ⟨true⟩ envWithTicket2 := by
  have h1 := C5_credentialed ⟨false, none⟩ ⟨true⟩ envWithTicket envWithTicket2 (by simp)
  have h2 := C5_credentialed ⟨false, none⟩ ⟨true⟩ envNoTicket envNoTicket (by simp)
  refine ⟨?_, ?_, h1.2 rfl⟩
  · simpa [envWithTicket] using h1.1
  · simpa [envNoTicket] using h2.1

/-- C6: the three-line example parses to exactly the two entries in order:
the marker is stripped and sets the anonymous flag, the plain line becomes a
credentialed entry verbatim, and the empty line contributes nothing. -/
theorem C6_parse_example :
    parse_entries "smb://h/a\n[anonymous]smb://h/b\n\n" =
      [⟨"smb://h/a", false⟩, ⟨"smb://h/b", true⟩] := by decide

/-- C7: the empty string parses to the empty entry list, and whenever the
parse is empty, `handle_user_mounts` returns success having dispatched zero
mounts and without entering the completion loop, whatever events might have
been available on the channel. -/
theorem C7_empty_parse :
    parse_entries "" = [] ∧
    (∀ (content : String) (completions : List Msg), parse_entries content = [] →
      handle_user_mounts (Except.ok content) completions =
        ⟨Except.ok (), 0, false⟩) := by
  refine ⟨rfl, ?_⟩
  intro content completions h
  unfold handle_user_mounts
  simp [h]

/-- C7 witness: the statement applied to the empty string itself. -/
theorem C7_witness :
    handle_user_mounts (Except.ok "") [] = ⟨Except.ok (), 0, false⟩ :=
  C7_empty_parse.2 "" [] rfl

/-- C8: a completion event carrying the transient Asked status appends
nothing to the error list while still decrementing the pending count by
one; within any full run its presence leaves the accumulated error list
exactly that of the other events, and an empty error list evaluates to
success — so an Asked event can never by itself cause an error. -/
theorem C8_asked_benign :
    (∀ (path : String) (errs : List MountError) (l : Nat),
      user_mount_cb ⟨path, Except.ok MountStatus.Asked⟩ errs l =
        ⟨errs, l - 1, decide (l - 1 = 0), decide (l - 1 ≠ 0)⟩) ∧
    (∀ (pre post : List Msg) (path : String),
      collectErrors (pre ++ ⟨path, Except.ok MountStatus.Asked⟩ :: post) =
        collectErrors (pre ++ post)) ∧
    (∀ (msgs : List Msg) (n : Nat), msgs.length = n → 1 ≤ n →
      (runLoop n msgs).errors = collectErrors msgs) ∧
    evaluate_errors [] = Except.ok () := by
  refine ⟨?_, ?_, ?_, rfl⟩
  · intro path errs l
    rw [user_mount_cb_eq]
    simp [collectErrors]
  · intro pre post path
    simp [collectErrors, List.filterMap_append, List.filterMap_cons]
  · intro msgs n hlen hn
    rw [runLoop_complete msgs n hlen hn]

/-- C8 witness: the statement applied to a concrete one-event run whose
only event carries the Asked status. -/
theorem C8_witness :
    user_mount_cb ⟨"smb://h/a", Except.ok MountStatus.Asked⟩ [] 1 =
      ⟨[], 0, true, false⟩ ∧
    collectErrors [⟨"smb://h/a", Except.ok MountStatus.Asked⟩] = collectErrors [] ∧
    (runLoop 1 [⟨"smb://h/a", Except.ok MountStatus.Asked⟩]).errors =
      collectErrors [⟨"smb://h/a", Except.ok MountStatus.Asked⟩] := by
  refine ⟨?_, ?_, ?_⟩
  · have h := C8_asked_benign.1 "smb://h/a" [] 1
    simpa using h
  · have h := C8_asked_benign.2.1 [] [] "smb://h/a"
    simpa using h
  · exact C8_asked_benign.2.2.1 [⟨"smb://h/a", Except.ok MountStatus.Asked⟩] 1 rfl (by decide)

/-- C9 counterexample: a file whose single line is one space — a
whitespace-only, hence blank, line — does not parse to the empty list; the
line becomes a credentialed entry and one mount is dispatched for it. -/
theorem C9_counterexample :
    (" " : String).data = [' '] ∧
    parse_entries " " = [⟨" ", false⟩] ∧
    handle_user_mounts (Except.ok " ") [⟨" ", Except.ok MountStatus.Done⟩] =
      ⟨Except.ok (), 1, true⟩ := by decide

/-- C9 amended: only exactly-empty lines are skipped, so an input whose
every line is empty (newlines only) parses to the empty list, and
`handle_user_mounts` on it returns success with zero dispatched mounts. -/
theorem C9_amended (content : String) (completions : List Msg)
    (h : ∀ line ∈ rustLines content, line = []) :
    parse_entries content = [] ∧
    handle_user_mounts (Except.ok content) completions =
      ⟨Except.ok (), 0, false⟩ := by
  have hpe : parse_entries content = [] := by
    unfold parse_entries
    rw [List.filterMap_eq_nil_iff]
    intro a ha
    rw [h a ha]
    rfl
  refine ⟨hpe, ?_⟩
  unfold handle_user_mounts
  simp [hpe]

/-- C9 witness: the amended statement applied to a file of two newlines. -/
theorem C9_amended_witness :
    parse_entries "\n\n" = [] ∧
    handle_user_mounts (Except.ok "\n\n") [] = ⟨Except.ok (), 0, false⟩ :=
  C9_amended "\n\n" [] (by decide)

/-- C10: the overall outcome of `handle_user_mounts` is unchanged under any
permutation of the arrival order of the completion events (for the event
count matching the dispatched entries). -/
theorem C10_order_independence (content : String) (msgs₁ msgs₂ : List Msg)
    (hperm : msgs₁.Perm msgs₂)
    (hlen : msgs₁.length = (parse_entries content).length) :
    handle_user_mounts (Except.ok content) msgs₁ =
      handle_user_mounts (Except.ok content) msgs₂ := by
  unfold handle_user_mounts
  by_cases hp : (parse_entries content).isEmpty
  · simp [hp]
  · simp only [hp, if_false]
    have hne : parse_entries content ≠ [] := by
      simpa [List.isEmpty_iff] using hp
    have hn : 1 ≤ (parse_entries content).length := List.length_pos.mpr hne
    rw [runLoop_complete msgs₁ _ hlen hn,
        runLoop_complete msgs₂ _ (hperm.length_eq ▸ hlen) hn]
    simp only []
    rw [evaluate_errors_perm (collectErrors_perm hperm)]

/-- C10 witness: swapping the two completion events of a two-entry run
leaves the outcome unchanged. -/
theorem C10_witness :
    handle_user_mounts (Except.ok "smb://h/a\nsmb://h/b")
        [⟨"smb://h/a", Except.ok MountStatus.Done⟩,
         ⟨"smb://h/b", Except.error ⟨IOErrorEnum.Failed⟩⟩] =
      handle_user_mounts (Except.ok "smb://h/a\nsmb://h/b")
        [⟨"smb://h/b", Except.error ⟨IOErrorEnum.Failed⟩⟩,
         ⟨"smb://h/a", Except.ok MountStatus.Done⟩] :=
  C10_order_independence "smb://h/a\nsmb://h/b" _ _
    (List.Perm.swap _ _ _) (by decide)

end AdsysMount
